import Mathlib

/-!
Shallow embedding of the rainier CNI plugin (`rainier.go`): the per-container
interface lifecycle commands `cmdAdd` / `cmdDel`, the durable container-to-host-
interface state file (`readHostInterfacesFromFile` / `writeHostInterfacesToFile`),
and the external calls each command issues (OVS bridge/port commands, netns entry,
veth creation, the IPAM delegate, result printing).

External effects (JSON decoding of stdin, OVS commands, netns, veth setup, the
IPAM delegate, disk writes, result printing) are modelled by an `Env` record that
fixes the outcome of each call; the durable JSON file is a `FileState`; each
command returns its outcome, the final file state, and the trace of external
calls it issued, in order.
-/

namespace Rainier

/-- The persisted mapping from container identifier to host-side interface
name, as decoded from the JSON file (a JSON object: association of string keys
to string values). -/
abbrev StoreMap := List (String × String)

/-- Lookup of a key in the mapping (Go map indexing: `hostInterfaces[id]`,
yielding `nil` when absent). -/
def lookupKey (m : StoreMap) (k : String) : Option String :=
  match m with
  | [] => none
  | (k1, v) :: rest => if k1 = k then some v else lookupKey rest k

/-- Removal of every binding of a key (Go `delete(hostInterfaces, id)`). -/
def removeKey (m : StoreMap) (k : String) : StoreMap :=
  match m with
  | [] => []
  | (k1, v) :: rest => if k1 = k then removeKey rest k else (k1, v) :: removeKey rest k

/-- Assignment `hostInterfaces[id] = name`: replaces any existing binding of the
key, keeping at most one entry per key as a Go map does. -/
def putKey (m : StoreMap) (k v : String) : StoreMap :=
  removeKey m k ++ [(k, v)]

/-- Number of bindings of a key present in the association list. -/
def countKey (m : StoreMap) (k : String) : Nat :=
  match m with
  | [] => 0
  | (k1, _) :: rest => (if k1 = k then 1 else 0) + countKey rest k

/-- `json.Unmarshal` of a decoded object into an existing non-nil Go map keeps
the entries already present and writes each decoded entry over any duplicate. -/
def mergeInto (cur : StoreMap) (m : StoreMap) : StoreMap :=
  m.foldl (fun acc p => putKey acc p.1 p.2) cur

/-- State of the durable JSON file at the well-known path: absent, present but
not decodable, or present and decoding to a mapping. -/
inductive FileState where
  | missing
  | corrupt
  | stored (m : StoreMap)
deriving DecidableEq, Repr

/-- Outcome of `readHostInterfacesFromFile` (its returned `error`). -/
inductive ReadResult where
  | ok
  | decodeFailed
deriving DecidableEq, Repr

/-- Outcome of `writeHostInterfacesToFile` (its returned `error`). -/
inductive WriteResult where
  | ok
  | persistFailed
deriving DecidableEq, Repr

/-- `readHostInterfacesFromFile`: `ioutil.ReadFile` failing (file absent) is
silently skipped, leaving the in-memory map as it was and returning nil;
a file that exists but does not decode returns an error, leaving the map
unchanged; a decodable file is unmarshalled into the existing map. -/
def readHostInterfacesFromFile (fs : FileState) (cur : StoreMap) :
    ReadResult × StoreMap :=
  match fs with
  | .missing => (.ok, cur)
  | .corrupt => (.decodeFailed, cur)
  | .stored m => (.ok, mergeInto cur m)

/-- `writeHostInterfacesToFile`: marshals the map (cannot fail for a map of
strings) and writes the file, replacing its prior content; `diskOk` models
whether `ioutil.WriteFile` succeeds. On a write error the file keeps its prior
state and an error is returned. -/
def writeHostInterfacesToFile (diskOk : Bool) (fs : FileState) (m : StoreMap) :
    WriteResult × FileState :=
  if diskOk then (.ok, .stored m) else (.persistFailed, fs)

/-- A network interface descriptor (`current.Interface`): name, MAC, sandbox
(namespace path; empty for the host side). -/
structure NetIf where
  name : String
  mac : String
  sandbox : String
deriving DecidableEq, Repr

/-- One assigned IP configuration (`current.IPConfig`): the address payload is
kept opaque as a string; `index` is the `Interface` field, the index into the
result's interface list (`*int`, hence optional). -/
structure IPConf where
  address : String
  gateway : String
  index : Option Nat
deriving DecidableEq, Repr

/-- DNS configuration (`types.DNS`), passed through from the network config. -/
structure DNSConf where
  nameservers : List String
  domain : String
deriving DecidableEq, Repr

/-- The CNI result (`current.Result`): version, interface list, assigned IPs,
DNS. -/
structure CNIResult where
  cniVersion : String
  interfaces : List NetIf
  ips : List IPConf
  dns : DNSConf
deriving DecidableEq, Repr

/-- `RainierConfig`: the embedded `types.NetConf` fields used by the code
(CNI version, IPAM delegate type, DNS) plus `publicBridgeName`. -/
structure RainierConfig where
  cniVersion : String
  ipamType : String
  dns : DNSConf
  publicBridgeName : String
deriving DecidableEq, Repr

/-- The per-invocation arguments (`skel.CmdArgs`): container ID, netns path,
requested container-side interface name. The stdin bytes are modelled through
`Env.parsedConfig` (the outcome of `json.Unmarshal` on them). -/
structure CmdArgs where
  containerID : String
  netnsPath : String
  ifName : String
deriving DecidableEq, Repr

/-- Outcomes of the external calls an invocation makes, fixing the behaviour of
the world the command runs against. `parsedConfig` is the result of decoding
the stdin bytes; `vethResult` is the (host-side, container-side) descriptor
pair `createVeth` produces on success; `ipamAddResult` the delegate's result on
success; the booleans are success flags of the corresponding calls. -/
structure Env where
  parsedConfig : Option RainierConfig
  bridgeAddOk : Bool
  netnsOk : Bool
  vethResult : Option (NetIf × NetIf)
  portAddOk : Bool
  ipamAddResult : Option CNIResult
  convertOk : Bool
  configureOk : Bool
  ipamDelOk : Bool
  delPortOk : Bool
  diskWriteOk : Bool
  printOk : Bool
deriving DecidableEq, Repr

/-- The external calls an invocation can issue, recorded in order. -/
inductive Call where
  | addBridge (name : String)
  | openNS (path : String)
  | setupVeth (ifName : String)
  | addPort (bridge iface : String)
  | ipamAdd (ipamType : String)
  | ipamDel (ipamType : String)
  | configureIface (iface : String)
  | delPort (bridge iface : String)
  | readStore
  | writeStore (m : StoreMap)
deriving DecidableEq, Repr

/-- The error an invocation returns, tagged by the step that failed. -/
inductive CmdError where
  | malformedConfig
  | bridgeFailed (name : String)
  | netnsFailed (path : String)
  | vethFailed
  | portAttachFailed
  | ipamAddFailed
  | convertFailed
  | noIPAddress
  | configureFailed
  | printFailed
  | ipamDelFailed
  | detachFailed
deriving DecidableEq, Repr

/-- Invocation outcome: success carrying a value, or a `CmdError`. -/
inductive Outcome (α : Type) where
  | ok (val : α)
  | err (e : CmdError)
deriving DecidableEq, Repr

/-- Full observable result of `cmdAdd`: return value, final file state, call
trace. -/
structure AddOut where
  ret : Outcome CNIResult
  fs : FileState
  calls : List Call
deriving DecidableEq, Repr

/-- Full observable result of `cmdDel`. -/
structure DelOut where
  ret : Outcome Unit
  fs : FileState
  calls : List Call
deriving DecidableEq, Repr

/-- `cmdAdd`: decode config; create the OVS bridge; open the netns; create the
veth pair; attach the host end as an OVS port; run the IPAM delegate; convert
its result; require at least one IP; point every IP at interface index 0; set
the interface list to just the container-side end; configure the container
interface; set DNS from the config; then read the state file (error ignored),
put the container ID, write the state file (error ignored); print the result.
Each invocation is a fresh process, so the in-memory map starts empty. -/
def cmdAdd (env : Env) (args : CmdArgs) (fs : FileState) : AddOut :=
  match env.parsedConfig with
  | none => ⟨.err .malformedConfig, fs, []⟩
  | some config =>
    let calls := [Call.addBridge config.publicBridgeName]
    if !env.bridgeAddOk then ⟨.err (.bridgeFailed config.publicBridgeName), fs, calls⟩
    else
    let calls := calls ++ [Call.openNS args.netnsPath]
    if !env.netnsOk then ⟨.err (.netnsFailed args.netnsPath), fs, calls⟩
    else
    let calls := calls ++ [Call.setupVeth args.ifName]
    match env.vethResult with
    | none => ⟨.err .vethFailed, fs, calls⟩
    | some (hostIface, containerIface) =>
      let calls := calls ++ [Call.addPort config.publicBridgeName hostIface.name]
      if !env.portAddOk then ⟨.err .portAttachFailed, fs, calls⟩
      else
      let calls := calls ++ [Call.ipamAdd config.ipamType]
      match env.ipamAddResult with
      | none => ⟨.err .ipamAddFailed, fs, calls⟩
      | some r0 =>
        if !env.convertOk then ⟨.err .convertFailed, fs, calls⟩
        else
        if r0.ips.isEmpty then ⟨.err .noIPAddress, fs, calls⟩
        else
        let r1 := { r0 with ips := r0.ips.map (fun ip : IPConf => { ip with index := some 0 }) }
        let r2 := { r1 with interfaces := [containerIface] }
        let calls := calls ++ [Call.configureIface containerIface.name]
        if !env.configureOk then ⟨.err .configureFailed, fs, calls⟩
        else
        let r3 := { r2 with dns := config.dns }
        let calls := calls ++ [Call.readStore]
        let mem0 := (readHostInterfacesFromFile fs []).2
        let mem1 := putKey mem0 args.containerID hostIface.name
        let calls := calls ++ [Call.writeStore mem1]
        let fs2 := (writeHostInterfacesToFile env.diskWriteOk fs mem1).2
        if env.printOk then ⟨.ok r3, fs2, calls⟩
        else ⟨.err .printFailed, fs2, calls⟩

/-- `cmdDel`: decode config; run the IPAM delegate teardown (`ipam.ExecDel`) —
before any store access; read the state file (error ignored); look up the
container ID; when absent return success; otherwise delete the OVS port
(failure aborts), remove the entry and write the state file (write error
ignored). -/
def cmdDel (env : Env) (args : CmdArgs) (fs : FileState) : DelOut :=
  match env.parsedConfig with
  | none => ⟨.err .malformedConfig, fs, []⟩
  | some config =>
    let calls := [Call.ipamDel config.ipamType]
    if !env.ipamDelOk then ⟨.err .ipamDelFailed, fs, calls⟩
    else
    let calls := calls ++ [Call.readStore]
    let mem0 := (readHostInterfacesFromFile fs []).2
    match lookupKey mem0 args.containerID with
    | none => ⟨.ok (), fs, calls⟩
    | some hostIfName =>
      let calls := calls ++ [Call.delPort config.publicBridgeName hostIfName]
      if !env.delPortOk then ⟨.err .detachFailed, fs, calls⟩
      else
      let mem1 := removeKey mem0 args.containerID
      let calls := calls ++ [Call.writeStore mem1]
      let fs2 := (writeHostInterfacesToFile env.diskWriteOk fs mem1).2
      ⟨.ok (), fs2, calls⟩

/-- Whether a call is a state-file write. -/
def isWriteStore : Call → Bool
  | .writeStore _ => true
  | _ => false

/-- Whether the trace contains a state-file write. -/
def hasWriteStore (l : List Call) : Bool := l.any isWriteStore

/-- Whether a call is an OVS port detach. -/
def isDelPort : Call → Bool
  | .delPort _ _ => true
  | _ => false

/-- Whether the trace contains an OVS port detach. -/
def hasDelPort (l : List Call) : Bool := l.any isDelPort

/-- Whether a call is an IPAM delegate teardown (`ipam.ExecDel`). -/
def isIpamDel : Call → Bool
  | .ipamDel _ => true
  | _ => false

/-- Whether the trace contains an IPAM delegate teardown. -/
def hasIpamDel (l : List Call) : Bool := l.any isIpamDel

/-- The container-side descriptor `createVeth` yields in `env` (placeholder
when veth creation fails). -/
def containerIfaceOf (env : Env) : NetIf :=
  (env.vethResult.map Prod.snd).getD ⟨"", "", ""⟩

/-- The host-side interface name `createVeth` yields in `env` (empty when veth
creation fails). -/
def hostIfNameOf (env : Env) : String :=
  ((env.vethResult.map Prod.fst).getD ⟨"", "", ""⟩).name

/-- The DNS configuration of the parsed config in `env` (placeholder when
parsing fails). -/
def dnsOf (env : Env) : DNSConf :=
  (env.parsedConfig.map RainierConfig.dns).getD ⟨[], ""⟩

/-- The store phase of a successful `cmdAdd` (its final three statements, with
the in-memory map fresh and the disk write succeeding): read the file, put the
container's entry, write the file back. Used to examine interleavings of two
invocations' store phases. -/
def addStorePhase (containerID hostIfName : String) (fs : FileState) : FileState :=
  (writeHostInterfacesToFile true fs
    (putKey (readHostInterfacesFromFile fs []).2 containerID hostIfName)).2

/-- Two `cmdAdd` store phases racing on the same file with no lock: both read
before either writes (invocation B's read happens before invocation A's
write). -/
def interleavedAdds (idA nA idB nB : String) (fs : FileState) : FileState :=
  let memA := (readHostInterfacesFromFile fs []).2
  let memB := (readHostInterfacesFromFile fs []).2
  let fsA := (writeHostInterfacesToFile true fs (putKey memA idA nA)).2
  (writeHostInterfacesToFile true fsA (putKey memB idB nB)).2

/-- Contents of the file as a mapping, as the next invocation would load it. -/
def loadedMap (fs : FileState) : StoreMap :=
  (readHostInterfacesFromFile fs []).2

/-- A sample parsed configuration. -/
def sampleConfig : RainierConfig :=
  ⟨"0.3.1", "host-local", ⟨["8.8.8.8"], "local"⟩, "br0"⟩

/-- A sample IPAM delegate result: one address, no interface index yet. -/
def sampleIpamResult : CNIResult :=
  ⟨"0.3.1", [], [⟨"10.0.0.5/24", "10.0.0.1", none⟩], ⟨[], ""⟩⟩

/-- An environment in which every external call succeeds. -/
def envAllOk : Env :=
  { parsedConfig := some sampleConfig
    bridgeAddOk := true
    netnsOk := true
    vethResult := some (⟨"veth1a2b", "aa:bb:cc:dd:ee:01", ""⟩,
                        ⟨"eth0", "aa:bb:cc:dd:ee:02", "/var/run/netns/x"⟩)
    portAddOk := true
    ipamAddResult := some sampleIpamResult
    convertOk := true
    configureOk := true
    ipamDelOk := true
    delPortOk := true
    diskWriteOk := true
    printOk := true }

/-- Environment whose stdin bytes do not decode. -/
def envParseFail : Env := { envAllOk with parsedConfig := none }

/-- Environment in which only the state-file disk write fails. -/
def envDiskFail : Env := { envAllOk with diskWriteOk := false }

/-- Environment in which only the OVS port removal fails (port already gone). -/
def envDelPortFail : Env := { envAllOk with delPortOk := false }

/-- Environment whose config decoded with an empty `publicBridgeName` (the
field absent from the JSON object decodes to the empty string). -/
def envEmptyBridge : Env :=
  { envAllOk with parsedConfig := some { sampleConfig with publicBridgeName := "" } }

/-- Environment in which the IPAM delegate teardown fails. -/
def envIpamDelFail : Env := { envAllOk with ipamDelOk := false }

/-- Sample invocation arguments. -/
def args1 : CmdArgs := ⟨"c1", "/var/run/netns/x", "eth0"⟩

/-- Arguments naming a container that was never added. -/
def argsUnknown : CmdArgs := ⟨"c99", "/var/run/netns/y", "eth0"⟩

/-- Further sample arguments, container `c7`. -/
def argsC7 : CmdArgs := ⟨"c7", "/var/run/netns/z", "eth0"⟩

/-- The result a fully successful ADD emits in `envAllOk`: the container-side
interface only, the delegate's address pointed at index 0, DNS from the
config. -/
def sampleAddResult : CNIResult :=
  ⟨"0.3.1", [⟨"eth0", "aa:bb:cc:dd:ee:02", "/var/run/netns/x"⟩],
    [⟨"10.0.0.5/24", "10.0.0.1", some 0⟩], ⟨["8.8.8.8"], "local"⟩⟩

end Rainier

namespace Rainier

theorem lookupKey_removeKey_self (m : StoreMap) (k : String) :
    lookupKey (removeKey m k) k = none := by
  induction m with
  | nil => rfl
  | cons p t ih =>
    obtain ⟨k1, v⟩ := p
    by_cases h : k1 = k
    · simp [removeKey, h, ih]
    · simp [removeKey, lookupKey, h, ih]

theorem lookupKey_removeKey_other (m : StoreMap) (k q : String) (h : q ≠ k) :
    lookupKey (removeKey m k) q = lookupKey m q := by
  induction m with
  | nil => rfl
  | cons p t ih =>
    obtain ⟨k1, v⟩ := p
    by_cases h1 : k1 = k
    · subst h1
      have hq : k1 ≠ q := fun he => h (he.symm.trans rfl)
      simp [removeKey, lookupKey, hq, ih]
    · by_cases h2 : k1 = q
      · subst h2
        simp [removeKey, lookupKey, h1]
      · simp [removeKey, lookupKey, h1, h2, ih]

theorem lookupKey_append (l1 l2 : StoreMap) (q : String) :
    lookupKey (l1 ++ l2) q =
      match lookupKey l1 q with
      | some v => some v
      | none => lookupKey l2 q := by
  induction l1 with
  | nil => rfl
  | cons p t ih =>
    obtain ⟨k1, v1⟩ := p
    by_cases h1 : k1 = q
    · simp [lookupKey, h1]
    · simp [lookupKey, h1, ih]

theorem lookupKey_putKey_self (m : StoreMap) (k v : String) :
    lookupKey (putKey m k v) k = some v := by
  unfold putKey
  rw [lookupKey_append, lookupKey_removeKey_self]
  simp [lookupKey]

theorem lookupKey_putKey_other (m : StoreMap) (k q v : String) (h : q ≠ k) :
    lookupKey (putKey m k v) q = lookupKey m q := by
  unfold putKey
  rw [lookupKey_append, lookupKey_removeKey_other m k q h]
  cases hx : lookupKey m q with
  | none =>
    have hk : k ≠ q := fun he => h he.symm
    simp [lookupKey, hk]
  | some w => rfl

theorem countKey_append (l1 l2 : StoreMap) (k : String) :
    countKey (l1 ++ l2) k = countKey l1 k + countKey l2 k := by
  induction l1 with
  | nil => simp [countKey]
  | cons p t ih =>
    obtain ⟨k1, v⟩ := p
    show countKey ((k1, v) :: (t ++ l2)) k = countKey ((k1, v) :: t) k + countKey l2 k
    simp only [countKey]
    rw [ih]
    omega

theorem countKey_removeKey_self (m : StoreMap) (k : String) :
    countKey (removeKey m k) k = 0 := by
  induction m with
  | nil => rfl
  | cons p t ih =>
    obtain ⟨k1, v⟩ := p
    by_cases h : k1 = k
    · simp [removeKey, h, ih]
    · simp [removeKey, countKey, h, ih]

theorem countKey_putKey_self (m : StoreMap) (k v : String) :
    countKey (putKey m k v) k = 1 := by
  unfold putKey
  rw [countKey_append, countKey_removeKey_self]
  simp [countKey]

theorem removeKey_of_forall_ne (m : StoreMap) (k : String)
    (h : ∀ p ∈ m, p.1 ≠ k) : removeKey m k = m := by
  induction m with
  | nil => rfl
  | cons p t ih =>
    obtain ⟨k1, v⟩ := p
    have hk : k1 ≠ k := h (k1, v) (List.mem_cons_self _ _)
    simp only [removeKey, if_neg hk]
    rw [ih (fun q hq => h q (List.mem_cons_of_mem _ hq))]

theorem mergeInto_eq_append (m : StoreMap) (acc : StoreMap)
    (hnd : (m.map Prod.fst).Nodup)
    (hdis : ∀ p ∈ acc, p.1 ∉ m.map Prod.fst) :
    mergeInto acc m = acc ++ m := by
  induction m generalizing acc with
  | nil => simp [mergeInto]
  | cons p t ih =>
    obtain ⟨k, v⟩ := p
    simp only [List.map_cons, List.nodup_cons] at hnd
    have hstep : mergeInto acc ((k, v) :: t) = mergeInto (putKey acc k v) t := rfl
    have hput : putKey acc k v = acc ++ [(k, v)] := by
      unfold putKey
      rw [removeKey_of_forall_ne]
      intro q hq
      have hx := hdis q hq
      simp only [List.map_cons, List.mem_cons] at hx
      exact fun he => hx (Or.inl he)
    rw [hstep, hput, ih _ hnd.2]
    · simp
    · intro q hq
      rcases List.mem_append.mp hq with hq1 | hq2
      · have hx := hdis q hq1
        simp only [List.map_cons, List.mem_cons] at hx
        exact fun hm => hx (Or.inr hm)
      · simp only [List.mem_singleton] at hq2
        subst hq2
        exact hnd.1

theorem mergeInto_nil (m : StoreMap) (hnd : (m.map Prod.fst).Nodup) :
    mergeInto [] m = m := by
  rw [mergeInto_eq_append m [] hnd (by intro p hp; cases hp)]
  rfl

/-- Every outcome of `cmdAdd` is a success, a result-print failure, or an
earlier failure that left the state file untouched with no write issued. -/
theorem cmdAdd_outcome_cases (env : Env) (args : CmdArgs) (fs : FileState) :
    (∃ r, (cmdAdd env args fs).ret = Outcome.ok r) ∨
    (cmdAdd env args fs).ret = Outcome.err CmdError.printFailed ∨
    ((cmdAdd env args fs).fs = fs ∧ hasWriteStore (cmdAdd env args fs).calls = false) := by
  unfold cmdAdd
  repeat' split
  all_goals simp [hasWriteStore, isWriteStore, List.any_append]

/-- When the disk write fails, `cmdAdd` leaves the state file as it was. -/
theorem cmdAdd_fs_of_diskFail (env : Env) (args : CmdArgs) (fs : FileState)
    (hdw : env.diskWriteOk = false) : (cmdAdd env args fs).fs = fs := by
  unfold cmdAdd
  repeat' split
  all_goals simp [writeHostInterfacesToFile, hdw]

/-- Every outcome of `cmdDel` either issued no state-file write (file
untouched) or returned success. -/
theorem cmdDel_outcome_cases (env : Env) (args : CmdArgs) (fs : FileState) :
    ((cmdDel env args fs).fs = fs ∧ hasWriteStore (cmdDel env args fs).calls = false) ∨
    (cmdDel env args fs).ret = Outcome.ok () := by
  cases hpc : env.parsedConfig with
  | none => simp [cmdDel, hpc, hasWriteStore, isWriteStore]
  | some config =>
    cases hd : env.ipamDelOk with
    | false => simp [cmdDel, hpc, hd, hasWriteStore, isWriteStore]
    | true =>
      cases hlk : lookupKey (readHostInterfacesFromFile fs []).2 args.containerID with
      | none => simp [cmdDel, hpc, hd, hlk, hasWriteStore, isWriteStore]
      | some hostIfName =>
        cases hdp : env.delPortOk with
        | false => simp [cmdDel, hpc, hd, hlk, hdp, hasWriteStore, isWriteStore]
        | true => right; simp [cmdDel, hpc, hd, hlk, hdp]

/-- When the disk write fails, `cmdDel` leaves the state file as it was. -/
theorem cmdDel_fs_of_diskFail (env : Env) (args : CmdArgs) (fs : FileState)
    (hdw : env.diskWriteOk = false) : (cmdDel env args fs).fs = fs := by
  cases hpc : env.parsedConfig with
  | none => simp [cmdDel, hpc]
  | some config =>
    cases hd : env.ipamDelOk with
    | false => simp [cmdDel, hpc, hd]
    | true =>
      cases hlk : lookupKey (readHostInterfacesFromFile fs []).2 args.containerID with
      | none => simp [cmdDel, hpc, hd, hlk]
      | some hostIfName =>
        cases hdp : env.delPortOk with
        | false => simp [cmdDel, hpc, hd, hlk, hdp]
        | true => simp [cmdDel, hpc, hd, hlk, hdp, writeHostInterfacesToFile, hdw]

/-- Shape of every successful `cmdAdd` result: the interface list is exactly
the container-side descriptor, every IP points at index 0, DNS comes from the
config, at least one IP is present, and the final file state is the (possibly
failed) write of the loaded mapping updated with this container's entry. -/
theorem cmdAdd_ok_shape (env : Env) (args : CmdArgs) (fs : FileState) (r : CNIResult)
    (h : (cmdAdd env args fs).ret = Outcome.ok r) :
    r.interfaces = [containerIfaceOf env] ∧
    (∀ ip ∈ r.ips, ip.index = some 0) ∧
    r.dns = dnsOf env ∧
    r.ips ≠ [] ∧
    (cmdAdd env args fs).fs =
      (writeHostInterfacesToFile env.diskWriteOk fs
        (putKey (loadedMap fs) args.containerID (hostIfNameOf env))).2 := by
  revert h
  unfold cmdAdd
  repeat' split
  all_goals intro h
  all_goals cases h
  all_goals simp_all [containerIfaceOf, hostIfNameOf, dnsOf, loadedMap, List.isEmpty_iff]

end Rainier

namespace Rainier

/-- Claim C1 (counterexample): for container `c99`, which has no entry in the
state store, DEL does invoke the IPAM delegate teardown (`ipam.ExecDel` runs
before the store is even read), and when that teardown fails DEL fails rather
than succeeding — refuting the claim that neither teardown path is invoked. -/
theorem cmdDel_unknown_id_invokes_ipam_teardown :
    hasIpamDel (cmdDel envAllOk argsUnknown FileState.missing).calls = true ∧
    (cmdDel envAllOk argsUnknown FileState.missing).ret = Outcome.ok () ∧
    (cmdDel envIpamDelFail argsUnknown FileState.missing).ret =
      Outcome.err CmdError.ipamDelFailed := by decide

/-- Claim C1 (amended): for every DEL invocation whose container ID has no
entry in the state store, provided the config decodes and the IPAM delegate
teardown succeeds, DEL returns success, leaves the state file untouched, and
invokes neither the switch detach nor a store write — but the IPAM delegate
teardown is always invoked, before the store lookup. -/
theorem cmdDel_unknown_id_noop_except_ipam (env : Env) (args : CmdArgs)
    (fs : FileState) (config : RainierConfig)
    (hpc : env.parsedConfig = some config) (hid : env.ipamDelOk = true)
    (hlk : lookupKey (loadedMap fs) args.containerID = none) :
    (cmdDel env args fs).ret = Outcome.ok () ∧
    (cmdDel env args fs).fs = fs ∧
    hasDelPort (cmdDel env args fs).calls = false ∧
    hasWriteStore (cmdDel env args fs).calls = false ∧
    hasIpamDel (cmdDel env args fs).calls = true := by
  unfold loadedMap at hlk
  simp [cmdDel, hpc, hid, hlk, hasDelPort, isDelPort, hasWriteStore, isWriteStore,
    hasIpamDel, isIpamDel]

/-- Claim C1 witness: the amended statement at container `c99` with no state
file present. -/
theorem cmdDel_unknown_id_noop_except_ipam_witness :
    (cmdDel envAllOk argsUnknown FileState.missing).ret = Outcome.ok () ∧
    (cmdDel envAllOk argsUnknown FileState.missing).fs = FileState.missing ∧
    hasDelPort (cmdDel envAllOk argsUnknown FileState.missing).calls = false ∧
    hasWriteStore (cmdDel envAllOk argsUnknown FileState.missing).calls = false ∧
    hasIpamDel (cmdDel envAllOk argsUnknown FileState.missing).calls = true :=
  cmdDel_unknown_id_noop_except_ipam envAllOk argsUnknown FileState.missing
    sampleConfig (by decide) (by decide) (by decide)

/-- Claim C2: evaluation of the code at the failing input. Container `c1` has
a store entry and `DeletePort` fails (port already absent): DEL aborts with
the detach error, the store entry is not removed, and no store write is
issued — the remaining cleanup does not proceed, contrary to the claim. -/
theorem cmdDel_detach_failure_aborts :
    (cmdDel envDelPortFail args1 (FileState.stored [("c1", "veth1a2b")])).ret =
      Outcome.err CmdError.detachFailed ∧
    (cmdDel envDelPortFail args1 (FileState.stored [("c1", "veth1a2b")])).fs =
      FileState.stored [("c1", "veth1a2b")] ∧
    hasWriteStore (cmdDel envDelPortFail args1
      (FileState.stored [("c1", "veth1a2b")])).calls = false ∧
    lookupKey (loadedMap (cmdDel envDelPortFail args1
      (FileState.stored [("c1", "veth1a2b")])).fs) "c1" = some "veth1a2b" := by decide

/-- Claim C3: every ADD failure other than the final result-print step leaves
the durable mapping exactly as it was and issues no store write, so no
persisted record for the container ID is created. -/
theorem cmdAdd_early_failure_no_persist (env : Env) (args : CmdArgs)
    (fs : FileState) (e : CmdError)
    (hret : (cmdAdd env args fs).ret = Outcome.err e)
    (hne : e ≠ CmdError.printFailed) :
    (cmdAdd env args fs).fs = fs ∧
    hasWriteStore (cmdAdd env args fs).calls = false := by
  rcases cmdAdd_outcome_cases env args fs with ⟨r, hr⟩ | hp | hgoal
  · rw [hret] at hr; cases hr
  · rw [hret] at hp
    cases hp
    exact absurd rfl hne
  · exact hgoal

/-- Claim C3 witness: an ADD whose config does not decode leaves the (absent)
state file absent and issues no write. -/
theorem cmdAdd_early_failure_no_persist_witness :
    (cmdAdd envParseFail args1 FileState.missing).fs = FileState.missing ∧
    hasWriteStore (cmdAdd envParseFail args1 FileState.missing).calls = false :=
  cmdAdd_early_failure_no_persist envParseFail args1 FileState.missing
    CmdError.malformedConfig (by decide) (by decide)

/-- Claim C4 (counterexample): an ADD in which every step succeeds except the
state-file disk write issues the write, the write fails leaving the file
absent, and the invocation still returns success — refuting the claim that a
failed save makes the invocation fail. -/
theorem cmdAdd_save_failure_still_succeeds :
    hasWriteStore (cmdAdd envDiskFail args1 FileState.missing).calls = true ∧
    (cmdAdd envDiskFail args1 FileState.missing).ret = Outcome.ok sampleAddResult ∧
    (cmdAdd envDiskFail args1 FileState.missing).fs = FileState.missing := by decide

/-- Claim C4 (amended): `writeHostInterfacesToFile` does report a write error,
but both `cmdAdd` and `cmdDel` discard its return value: when the disk write
fails and a store write was issued, the durable file is left unchanged and the
invocation's outcome is unaffected — ADD still succeeds (or fails only at
result printing) and DEL still returns success. -/
theorem save_error_ignored_by_commands (env : Env) (args : CmdArgs)
    (fs : FileState) (hdw : env.diskWriteOk = false) :
    (hasWriteStore (cmdAdd env args fs).calls = true →
      (cmdAdd env args fs).fs = fs ∧
      ((∃ r, (cmdAdd env args fs).ret = Outcome.ok r) ∨
        (cmdAdd env args fs).ret = Outcome.err CmdError.printFailed)) ∧
    (hasWriteStore (cmdDel env args fs).calls = true →
      (cmdDel env args fs).fs = fs ∧ (cmdDel env args fs).ret = Outcome.ok ()) := by
  constructor
  · intro hws
    refine ⟨cmdAdd_fs_of_diskFail env args fs hdw, ?_⟩
    rcases cmdAdd_outcome_cases env args fs with hok | hp | ⟨_, hno⟩
    · exact Or.inl hok
    · exact Or.inr hp
    · rw [hws] at hno; cases hno
  · intro hws
    refine ⟨cmdDel_fs_of_diskFail env args fs hdw, ?_⟩
    rcases cmdDel_outcome_cases env args fs with ⟨_, hno⟩ | hok
    · rw [hws] at hno; cases hno
    · exact hok

/-- Claim C4 witness: with the disk write failing, an otherwise successful ADD
leaves a corrupt prior state file exactly as it was. -/
theorem save_error_ignored_by_commands_witness :
    (cmdAdd envDiskFail args1 FileState.corrupt).fs = FileState.corrupt :=
  ((save_error_ignored_by_commands envDiskFail args1 FileState.corrupt rfl).1
    (by decide)).1

/-- Claim C5 (counterexample): when the state file exists but cannot be
decoded, `readHostInterfacesFromFile` reports the decode error, yet the DEL
invocation returns success — it does not fail with a corrupt-state error. -/
theorem cmdDel_corrupt_store_still_succeeds :
    (readHostInterfacesFromFile FileState.corrupt []).1 = ReadResult.decodeFailed ∧
    (cmdDel envAllOk args1 FileState.corrupt).ret = Outcome.ok () := by decide

/-- Claim C5 (amended): loading when the durable file does not exist yields
the mapping unchanged (empty for a fresh invocation) and is not an error; a
file that exists but cannot be decoded makes `readHostInterfacesFromFile`
return a decode error, but the callers ignore that return value, so the
invocation proceeds with an empty mapping and does not fail. -/
theorem load_missing_empty_decode_error_ignored (cur : StoreMap) (env : Env)
    (args : CmdArgs) (config : RainierConfig)
    (hpc : env.parsedConfig = some config) (hid : env.ipamDelOk = true) :
    readHostInterfacesFromFile FileState.missing cur = (ReadResult.ok, cur) ∧
    readHostInterfacesFromFile FileState.corrupt cur = (ReadResult.decodeFailed, cur) ∧
    (cmdDel env args FileState.corrupt).ret = Outcome.ok () := by
  refine ⟨rfl, rfl, ?_⟩
  simp [cmdDel, hpc, hid, readHostInterfacesFromFile, lookupKey]

/-- Claim C5 witness: the amended statement at a concrete in-memory map and
the all-succeeding environment. -/
theorem load_missing_empty_decode_error_ignored_witness :
    readHostInterfacesFromFile FileState.missing [("c1", "veth1a2b")] =
      (ReadResult.ok, [("c1", "veth1a2b")]) ∧
    readHostInterfacesFromFile FileState.corrupt [("c1", "veth1a2b")] =
      (ReadResult.decodeFailed, [("c1", "veth1a2b")]) ∧
    (cmdDel envAllOk args1 FileState.corrupt).ret = Outcome.ok () :=
  load_missing_empty_decode_error_ignored [("c1", "veth1a2b")] envAllOk args1
    sampleConfig (by decide) (by decide)

/-- Claim C6 (counterexample): a config that decodes with an empty
`publicBridgeName` is accepted — ADD proceeds to bridge creation with the
empty switch name and completes successfully, refuting the claim that an
absent or empty switch name fails config parsing. -/
theorem cmdAdd_empty_bridge_name_proceeds :
    Call.addBridge "" ∈ (cmdAdd envEmptyBridge args1 FileState.missing).calls ∧
    (cmdAdd envEmptyBridge args1 FileState.missing).ret =
      Outcome.ok sampleAddResult := by decide

/-- Claim C6 (amended): config parsing fails (with the malformed-config error,
and before any external call) exactly when the configuration bytes cannot be
decoded; no check on the switch-name field exists, and whenever the bytes
decode, ADD proceeds to bridge creation with whatever switch name was decoded,
including the empty string. -/
theorem config_parse_only_checks_decoding (env : Env) (args : CmdArgs)
    (fs : FileState) :
    (env.parsedConfig = none →
      (cmdAdd env args fs).ret = Outcome.err CmdError.malformedConfig ∧
      (cmdAdd env args fs).calls = []) ∧
    (∀ config, env.parsedConfig = some config →
      Call.addBridge config.publicBridgeName ∈ (cmdAdd env args fs).calls) := by
  constructor
  · intro hpc
    simp [cmdAdd, hpc]
  · intro config hpc
    unfold cmdAdd
    rw [hpc]
    repeat' split
    all_goals simp_all

/-- Claim C6 witness: with an empty decoded switch name, ADD issues the
bridge-creation call with the empty name. -/
theorem config_parse_only_checks_decoding_witness :
    Call.addBridge "" ∈ (cmdAdd envEmptyBridge argsC7 FileState.missing).calls :=
  (config_parse_only_checks_decoding envEmptyBridge argsC7 FileState.missing).2
    { sampleConfig with publicBridgeName := "" } rfl

/-- Claim C7 (counterexample): an ADD in which only the state-file disk write
fails returns success, yet the durable store afterwards has no entry for the
container ID — refuting the claim that every successful ADD leaves exactly one
persisted entry. -/
theorem cmdAdd_success_without_store_entry :
    (cmdAdd envDiskFail argsC7 FileState.missing).ret = Outcome.ok sampleAddResult ∧
    (cmdAdd envDiskFail argsC7 FileState.missing).fs = FileState.missing ∧
    lookupKey (loadedMap (cmdAdd envDiskFail argsC7 FileState.missing).fs) "c7" =
      none := by decide

/-- Claim C7 (amended): every successful ADD emits at least one IP entry, each
referencing interface index 0, which is a valid index; and the mapping written
to the store is the loaded mapping updated with exactly one entry for the
container ID, bound to the created host-side interface name — the durable file
holds that mapping when the (ignored) disk write succeeds, and is left
unchanged when it fails. -/
theorem cmdAdd_success_result_and_store (env : Env) (args : CmdArgs)
    (fs : FileState) (r : CNIResult)
    (hret : (cmdAdd env args fs).ret = Outcome.ok r) :
    r.ips ≠ [] ∧
    (∀ ip ∈ r.ips, ip.index = some 0 ∧ 0 < r.interfaces.length) ∧
    (env.diskWriteOk = true →
      (cmdAdd env args fs).fs =
        FileState.stored (putKey (loadedMap fs) args.containerID (hostIfNameOf env)) ∧
      lookupKey (putKey (loadedMap fs) args.containerID (hostIfNameOf env))
        args.containerID = some (hostIfNameOf env) ∧
      countKey (putKey (loadedMap fs) args.containerID (hostIfNameOf env))
        args.containerID = 1) ∧
    (env.diskWriteOk = false → (cmdAdd env args fs).fs = fs) := by
  obtain ⟨hif, hips, hdns, hne, hfs⟩ := cmdAdd_ok_shape env args fs r hret
  refine ⟨hne, ?_, ?_, ?_⟩
  · intro ip hip
    exact ⟨hips ip hip, by rw [hif]; simp⟩
  · intro hdw
    rw [hfs, hdw]
    exact ⟨rfl, lookupKey_putKey_self _ _ _, countKey_putKey_self _ _ _⟩
  · intro hdw
    rw [hfs, hdw]
    rfl

/-- Claim C7 witness: the persisted mapping of a fully successful ADD of `c1`
binds `c1` exactly once, to the created host-side interface name. -/
theorem cmdAdd_success_result_and_store_witness :
    lookupKey (putKey (loadedMap FileState.missing) "c1" (hostIfNameOf envAllOk))
      "c1" = some (hostIfNameOf envAllOk) ∧
    countKey (putKey (loadedMap FileState.missing) "c1" (hostIfNameOf envAllOk))
      "c1" = 1 :=
  ((cmdAdd_success_result_and_store envAllOk args1 FileState.missing
    sampleAddResult (by decide)).2.2.1 rfl).2

/-- Claim C8: for every mapping (with each key bound once, as in a JSON
object), a successful save followed by a load reproduces the identical
mapping, whatever the file held before; and loading when no durable file
exists yields the empty mapping without an error. -/
theorem save_then_load_roundtrip (m : StoreMap) (fs : FileState)
    (hnd : (m.map Prod.fst).Nodup) :
    readHostInterfacesFromFile (writeHostInterfacesToFile true fs m).2 [] =
      (ReadResult.ok, m) ∧
    readHostInterfacesFromFile FileState.missing [] = (ReadResult.ok, []) := by
  constructor
  · show readHostInterfacesFromFile (FileState.stored m) [] = (ReadResult.ok, m)
    simp [readHostInterfacesFromFile, mergeInto_nil m hnd]
  · rfl

/-- Claim C8 witness: a two-entry mapping round-trips through a save that
replaces a previously corrupt file. -/
theorem save_then_load_roundtrip_witness :
    readHostInterfacesFromFile
      (writeHostInterfacesToFile true FileState.corrupt
        [("c1", "veth1a2b"), ("c2", "veth3c4d")]).2 [] =
      (ReadResult.ok, [("c1", "veth1a2b"), ("c2", "veth3c4d")]) ∧
    readHostInterfacesFromFile FileState.missing [] = (ReadResult.ok, []) :=
  save_then_load_roundtrip [("c1", "veth1a2b"), ("c2", "veth3c4d")]
    FileState.corrupt (by decide)

/-- Claim C9 (counterexample): two ADD store phases racing with no lock — the
second invocation's load happening before the first invocation's save — lose
the first mapping update: afterwards the store holds only the second entry. -/
theorem interleaved_adds_lose_entry :
    lookupKey (loadedMap (interleavedAdds "idA" "vethA" "idB" "vethB"
      FileState.missing)) "idA" = none ∧
    lookupKey (loadedMap (interleavedAdds "idA" "vethA" "idB" "vethB"
      FileState.missing)) "idB" = some "vethB" := by decide

/-- Claim C9 (amended): the code guards the Load-mutate-Save span with no lock,
so overlapping invocations can lose updates; only when the two ADD store
phases do not overlap (the second loads after the first saves) do both
distinct entries survive in the store. -/
theorem sequential_store_phases_keep_both (idA nA idB nB : String)
    (h : idA ≠ idB) :
    lookupKey (loadedMap (addStorePhase idB nB
      (addStorePhase idA nA FileState.missing))) idA = some nA ∧
    lookupKey (loadedMap (addStorePhase idB nB
      (addStorePhase idA nA FileState.missing))) idB = some nB := by
  have h1 : addStorePhase idA nA FileState.missing = FileState.stored [(idA, nA)] := rfl
  have h2 : (readHostInterfacesFromFile (FileState.stored [(idA, nA)]) []).2 =
      [(idA, nA)] := by
    simp [readHostInterfacesFromFile, mergeInto, putKey, removeKey]
  have h4 : putKey [(idA, nA)] idB nB = [(idA, nA), (idB, nB)] := by
    simp [putKey, removeKey, h]
  have h3 : addStorePhase idB nB (FileState.stored [(idA, nA)]) =
      FileState.stored [(idA, nA), (idB, nB)] := by
    simp [addStorePhase, writeHostInterfacesToFile, h2, h4]
  have hnd : (([(idA, nA), (idB, nB)] : StoreMap).map Prod.fst).Nodup := by
    simp [h]
  have h5 : loadedMap (FileState.stored [(idA, nA), (idB, nB)]) =
      [(idA, nA), (idB, nB)] := by
    simp only [loadedMap, readHostInterfacesFromFile]
    exact mergeInto_nil _ hnd
  rw [h1, h3, h5]
  constructor
  · simp [lookupKey]
  · simp [lookupKey, h]

/-- Claim C9 witness: two sequential ADD store phases for distinct containers
`a` and `b` leave both entries in the store. -/
theorem sequential_store_phases_keep_both_witness :
    lookupKey (loadedMap (addStorePhase "b" "y" (addStorePhase "a" "x"
      FileState.missing))) "a" = some "x" ∧
    lookupKey (loadedMap (addStorePhase "b" "y" (addStorePhase "a" "x"
      FileState.missing))) "b" = some "y" :=
  sequential_store_phases_keep_both "a" "x" "b" "y" (by decide)

/-- Claim C10: every successful ADD emits a Result whose interface sequence is
exactly the container-side descriptor (one element, the host-side descriptor
omitted), whose IP entries all carry interface index 0, and whose DNS
configuration is taken from the parsed config. -/
theorem cmdAdd_result_single_container_iface (env : Env) (args : CmdArgs)
    (fs : FileState) (r : CNIResult)
    (hret : (cmdAdd env args fs).ret = Outcome.ok r) :
    r.interfaces = [containerIfaceOf env] ∧
    r.interfaces.length = 1 ∧
    (∀ ip ∈ r.ips, ip.index = some 0) ∧
    r.dns = dnsOf env := by
  obtain ⟨hif, hips, hdns, _, _⟩ := cmdAdd_ok_shape env args fs r hret
  exact ⟨hif, by rw [hif]; rfl, hips, hdns⟩

/-- Claim C10 witness: the fully successful ADD of `c1` emits exactly the
container-side descriptor and the config's DNS. -/
theorem cmdAdd_result_single_container_iface_witness :
    sampleAddResult.interfaces = [containerIfaceOf envAllOk] ∧
    sampleAddResult.dns = dnsOf envAllOk :=
  ⟨(cmdAdd_result_single_container_iface envAllOk args1 FileState.missing
      sampleAddResult (by decide)).1,
   (cmdAdd_result_single_container_iface envAllOk args1 FileState.missing
      sampleAddResult (by decide)).2.2.2⟩

end Rainier
